import Mathlib

/-!
Verification of the `hemnet-predictions` scraper scripts.

Shallow embedding of `run_listing_prices.py` (for-sale variant) and
`run_end_prices.py` (sold variant).  Definitions whose Python originals
exist in both files with identical bodies are defined once; where the two
files define a function of the same name with different bodies, the Lean
name carries a suffix: `...L` for `run_listing_prices.py` and `...E` for
`run_end_prices.py`.

Modelling conventions:
* Python strings are Lean `String`s (lists of characters); the regex class
  `\d` and `str.isdigit`-style checks are modelled with ASCII
  `Char.isDigit`, which agrees with Python on the inputs these scripts
  handle; whitespace is `Char.isWhitespace` used consistently for both
  the modelled `str.strip` and `str.split`.
* Python `int(s)` is modelled on unsigned digit strings (the only shapes
  the scripts feed it); `float(s)` is modelled on unsigned fixed-point
  decimal literals, the only shapes relevant here, with exact rational
  values (`ℚ`) in place of IEEE doubles.
* A Python function that can raise is embedded as `Except String α`
  carrying the exception name; a function that catches its exceptions and
  degrades to `None` is embedded as a total function into `Option α`.
* `requests` / BeautifulSoup are abstracted: a fetched page is either an
  exception (`Fetch.err`) or a list of listing cards, where a card records
  exactly the raw text fragments the extractor reads off the markup.
* The third-party `dateutil` parser is abstracted as a parameter
  `dp : String → Option String` (`some` = a successfully parsed and
  reformatted date, `none` = the parser raises).
-/

/-- Decidable equality for exception-carrying results (used to evaluate
the model on concrete inputs). -/
instance {ε α : Type} [DecidableEq ε] [DecidableEq α] :
    DecidableEq (Except ε α) := fun a b =>
  match a, b with
  | Except.ok x, Except.ok y =>
    if h : x = y then isTrue (by rw [h])
    else isFalse (fun hc => h (Except.ok.inj hc))
  | Except.ok _, Except.error _ => isFalse (fun hc => Except.noConfusion hc)
  | Except.error _, Except.ok _ => isFalse (fun hc => Except.noConfusion hc)
  | Except.error x, Except.error y =>
    if h : x = y then isTrue (by rw [h])
    else isFalse (fun hc => h (Except.error.inj hc))

/-- Digit characters in the sense of the scripts' regexes (`[^\d]`, `\d+`). -/
def isDig (c : Char) : Bool := c.isDigit

/-- Value of a digit string read left to right in base 10: the integer
formed by concatenating the digits in order of appearance. -/
def natOfDigits (l : List Char) : Nat :=
  l.foldl (fun a c => 10 * a + (c.toNat - 48)) 0

/-- Models Python `int(s)` on the unsigned digit strings the scripts feed
it: `some` value if `s` is non-empty and all digits, otherwise `none`
(standing for `ValueError`). -/
def pyIntOfString (s : String) : Option Nat :=
  if s.toList ≠ [] ∧ s.toList.all isDig then some (natOfDigits s.toList) else none

/-- Models `re.sub(r'[^\d]', '', s)`: keep only the digits, in order. -/
def filterDigits (s : String) : String :=
  String.mk (s.toList.filter isDig)

/-- Models Python `str.strip()`: drop whitespace from both ends. -/
def pyStrip (s : String) : String :=
  String.mk (((s.toList.dropWhile Char.isWhitespace).reverse.dropWhile
    Char.isWhitespace).reverse)

/-- Auxiliary accumulator for `pySplitWs`. -/
def splitWsAux : List Char → List Char → List String
  | [], cur => if cur = [] then [] else [String.mk cur.reverse]
  | c :: rest, cur =>
    if c.isWhitespace then
      if cur = [] then splitWsAux rest []
      else String.mk cur.reverse :: splitWsAux rest []
    else splitWsAux rest (c :: cur)

/-- Models Python `str.split()` with no argument: whitespace-delimited
tokens, empty tokens dropped. -/
def pySplitWs (s : String) : List String := splitWsAux s.toList []

/-- Models `str.replace(',', '.')`. -/
def commaToDot (s : String) : String :=
  String.mk (s.toList.map (fun c => if c = ',' then '.' else c))

/-- First maximal run of characters satisfying `p`, i.e. the text matched
by `re.search` for a pattern of the form `[class]+`. -/
def firstRun (p : Char → Bool) : List Char → Option (List Char)
  | [] => none
  | c :: rest => if p c then some (c :: rest.takeWhile p) else firstRun p rest

/-- Models Python `float(s)` on the unsigned fixed-point decimal strings
relevant here, with an exact rational result: `none` stands for
`ValueError`. -/
def pyFloatOfString (s : String) : Option ℚ :=
  let l := s.toList
  if l ≠ [] ∧ l.all (fun c => isDig c || c = '.') ∧ l.count '.' ≤ 1 ∧ l.any isDig then
    let ip := l.takeWhile (fun c => c ≠ '.')
    let fp := (l.dropWhile (fun c => c ≠ '.')).drop 1
    some (mkRat (natOfDigits ip * 10 ^ fp.length + natOfDigits fp) (10 ^ fp.length))
  else none

/-- Models `safe_find` (both files): the stripped text of the found
element, or `None` when the element is absent. -/
def safe_find (o : Option String) : Option String := o.map pyStrip

/-- Models `safe_int` (`run_listing_prices.py`): `int(value)` with
`ValueError`/`TypeError` degraded to `None`. -/
def safe_int (o : Option String) : Option Nat := o.bind pyIntOfString

/-- Models `safe_float` (`run_listing_prices.py`): `float(value)` with
`ValueError`/`TypeError` degraded to `None`. -/
def safe_float (o : Option String) : Option ℚ := o.bind pyFloatOfString

/-- Python truthiness of an optional string: `None` and `""` are falsy. -/
def truthyStr : Option String → Bool
  | none => false
  | some s => decide (s ≠ "")

/-- Python truthiness of an optional integer: `None` and `0` are falsy. -/
def truthyNat : Option Nat → Bool
  | none => false
  | some n => decide (n ≠ 0)

/-- Python truthiness of an optional (possibly negative) integer. -/
def truthyInt : Option Int → Bool
  | none => false
  | some n => decide (n ≠ 0)

/-- Models Python `int(x)` on a float value: truncation toward zero, with
the float value idealised as an exact rational. -/
def pyTrunc (q : ℚ) : Int := Int.tdiv q.num q.den

/-- Modelled from the spec: the word `round` in the claimed derivation
`listing_price = round(end_price / (1 + percentage/100))`, read as
round-half-up, computed as `⌊q + 1/2⌋ = ⌊(2·num + den) / (2·den)⌋` (at
the inputs considered no tie arises, so any standard rounding convention
agrees). -/
def round_half_up (q : ℚ) : Int :=
  Int.fdiv (2 * q.num + q.den) (2 * q.den)

/-- The derived listing price of `run_end_prices.py` line 152:
`int(end_price / (1 + price_change_percentage / 100))`, with Python's
float division idealised as exact rational division (the quotient
`e / (1 + p/100)` is the rational `100·e / (100 + p)`; the theorem `C1`
below re-establishes the literal formula). -/
def derive_listing_price (e p : Nat) : Int :=
  pyTrunc (mkRat (100 * e) (100 + p))

/-- Modelled from the spec: the float-sanitizer rule as the spec states it
("take the first whitespace-delimited token, replace comma with period,
parse as floating point; null on failure"). -/
def float_token_rule (s : String) : Option ℚ :=
  match pySplitWs s with
  | [] => none
  | t :: _ => pyFloatOfString (commaToDot t)

/-- `sanitize_price` of `run_end_prices.py` (lines 17-24): strip non-digit
characters and convert with `int`, catching `ValueError` to `None`. -/
def sanitize_priceE (o : Option String) : Option Nat :=
  match o with
  | some s => if s = "" then none else pyIntOfString (filterDigits s)
  | none => none

/-- `sanitize_price_per_sqm` of `run_end_prices.py` (lines 26-33): same
rule as its `sanitize_price`. -/
def sanitize_price_per_sqmE (o : Option String) : Option Nat :=
  match o with
  | some s => if s = "" then none else pyIntOfString (filterDigits s)
  | none => none

/-- `sanitize_size` of `run_end_prices.py` (lines 35-43):
`float(re.search(r"[\d.,]+", size_str).group().replace(',', '.'))`,
catching `ValueError` and `AttributeError` to `None`. -/
def sanitize_sizeE (o : Option String) : Option ℚ :=
  match o with
  | some s =>
    if s = "" then none
    else
      match firstRun (fun c => isDig c || c = '.' || c = ',') s.toList with
      | some run => pyFloatOfString (commaToDot (String.mk run))
      | none => none
  | none => none

/-- `sanitize_rooms` of `run_end_prices.py` (lines 45-53): identical rule
to its `sanitize_size`. -/
def sanitize_roomsE (o : Option String) : Option ℚ :=
  match o with
  | some s =>
    if s = "" then none
    else
      match firstRun (fun c => isDig c || c = '.' || c = ',') s.toList with
      | some run => pyFloatOfString (commaToDot (String.mk run))
      | none => none
  | none => none

/-- `sanitize_fee` of `run_end_prices.py` (lines 55-58): note the missing
`try`/`except` — `int('')` on a digit-free truthy string raises
`ValueError`, which propagates to the caller. -/
def sanitize_feeE (o : Option String) : Except String (Option Nat) :=
  match o with
  | some s =>
    if s = "" then Except.ok none
    else
      match pyIntOfString (filterDigits s) with
      | some n => Except.ok (some n)
      | none => Except.error "ValueError"
  | none => Except.ok none

/-- `sanitize_address` (identical in both files, lines 60-63): portion
before the first comma, stripped; a falsy input is returned unchanged. -/
def sanitize_address (o : Option String) : Option String :=
  match o with
  | some s =>
    if s = "" then some s
    else some (pyStrip (String.mk (s.toList.takeWhile (fun c => c ≠ ','))))
  | none => none

/-- Models `date_str.replace("Såld ", "")`: remove every (left-to-right,
non-overlapping) occurrence of the five characters `Såld `␣. -/
def replaceSold : List Char → List Char
  | 'S' :: 'å' :: 'l' :: 'd' :: ' ' :: rest => replaceSold rest
  | c :: rest => c :: replaceSold rest
  | [] => []

/-- `parse_swedish_date` of `run_end_prices.py` (lines 65-80): removes
every occurrence of the prefix text `"Såld "`, hands the remainder to the
third-party date parser `dp`, and reformats.  No `try`/`except`: a parse
failure (modelled by `dp` returning `none`) raises. -/
def parse_swedish_date (dp : String → Option String) (date_str : String) :
    Except String String :=
  match dp (String.mk (replaceSold date_str.toList)) with
  | some d => Except.ok d
  | none => Except.error "ParserError"

/-- `sanitize_price` of `run_listing_prices.py` (lines 27-30):
`safe_int(re.sub(r'[^\d]', '', price_str))`. -/
def sanitize_priceL (o : Option String) : Option Nat :=
  match o with
  | some s => if s = "" then none else safe_int (some (filterDigits s))
  | none => none

/-- `sanitize_fee` of `run_listing_prices.py` (lines 50-53): same rule as
its `sanitize_price` (total, unlike the sold variant's `sanitize_fee`). -/
def sanitize_feeL (o : Option String) : Option Nat :=
  match o with
  | some s => if s = "" then none else safe_int (some (filterDigits s))
  | none => none

/-- `sanitize_price_per_sqm` of `run_listing_prices.py` (lines 55-58). -/
def sanitize_price_per_sqmL (o : Option String) : Option Nat :=
  match o with
  | some s => if s = "" then none else safe_int (some (filterDigits s))
  | none => none

/-- `sanitize_size` of `run_listing_prices.py` (lines 32-35):
`safe_float(size_str.replace(',', '.').split()[0])`.  On a truthy but
all-whitespace string, `split()` is empty and the `[0]` raises an
`IndexError` that `safe_float` does not catch. -/
def sanitize_sizeL (o : Option String) : Except String (Option ℚ) :=
  match o with
  | some s =>
    if s = "" then Except.ok none
    else
      match pySplitWs (commaToDot s) with
      | [] => Except.error "IndexError"
      | t :: _ => Except.ok (safe_float (some t))
  | none => Except.ok none

/-- `sanitize_rooms` of `run_listing_prices.py` (lines 37-41): identical
rule to its `sanitize_size`. -/
def sanitize_roomsL (o : Option String) : Except String (Option ℚ) :=
  match o with
  | some s =>
    if s = "" then Except.ok none
    else
      match pySplitWs (commaToDot s) with
      | [] => Except.error "IndexError"
      | t :: _ => Except.ok (safe_float (some t))
  | none => Except.ok none

/-- `sanitize_floor` of `run_listing_prices.py` (lines 43-48): first run
of digits when present, else the deliberate default `1`. -/
def sanitize_floor (o : Option String) : Option Nat :=
  match o with
  | some s =>
    if s = "" then some 1
    else
      match firstRun isDig s.toList with
      | some run => safe_int (some (String.mk run))
      | none => some 1
  | none => some 1

/-- Models `urljoin('https://www.hemnet.se', href)` for the root-relative
(or empty) hrefs the site serves: plain concatenation. -/
def urljoin (base rel : String) : String := base ++ rel

/-- The raw text fragments the for-sale extractor (`run_listing_prices.py`
`scrape_hemnet`, lines 80-118) reads off one `hcl-card` anchor.  `none`
fields model absent elements; text fields are the elements' raw `.text`. -/
structure CardL where
  href : Option String
  title : Option String
  primaryAttrs : List String
  secondaryAttrs : List String
  locationTxt : Option String
  features : List String
  deriving DecidableEq, Repr

/-- The `listing` dict of `run_listing_prices.py` (lines 81-93). -/
structure ListingL where
  link : String
  exact_address : Option String
  price : Option Nat
  size : Option ℚ
  rooms : Option ℚ
  floor : Option Nat
  monthly_fee : Option Nat
  price_per_sqm : Option Nat
  location : Option String
  has_elevator : Bool
  has_balcony : Bool
  deriving DecidableEq, Repr

/-- The text fragments of an attribute list indexed positionally:
`attrs[k].text.strip() if len(attrs) > k else None`. -/
def attrText (attrs : List String) (k : Nat) : Option String :=
  (attrs.get? k).map pyStrip

/-- The `if attributes:` block of `run_listing_prices.py` (lines 102-107):
price, size, rooms and floor from the positional primary attributes; all
four stay `None` when no primary-attribute element exists.  `sanitize_size`
or `sanitize_rooms` may raise (propagated). -/
def primaryFields (attrs : List String) :
    Except String (Option Nat × Option ℚ × Option ℚ × Option Nat) :=
  if attrs = [] then Except.ok (none, none, none, none)
  else
    match sanitize_sizeL (attrText attrs 1) with
    | Except.error e => Except.error e
    | Except.ok s =>
      match sanitize_roomsL (attrText attrs 2) with
      | Except.error e => Except.error e
      | Except.ok r =>
        Except.ok (sanitize_priceL (attrText attrs 0), s, r,
          sanitize_floor (attrText attrs 3))

/-- One iteration of the `for item in items` body of
`run_listing_prices.py` (lines 80-118), up to but not including the
required-field filter: builds the candidate listing, or raises
(`urljoin` on a missing href raises `TypeError`; the size/rooms
sanitizers can raise `IndexError`). -/
def buildListingL (c : CardL) : Except String ListingL :=
  match c.href with
  | none => Except.error "TypeError"
  | some h =>
    match primaryFields c.primaryAttrs with
    | Except.error e => Except.error e
    | Except.ok (p, s, r, f) =>
      Except.ok
        { link := urljoin "https://www.hemnet.se" h
          exact_address := sanitize_address (safe_find c.title)
          price := p
          size := s
          rooms := r
          floor := f
          monthly_fee :=
            if c.secondaryAttrs = [] then none
            else sanitize_feeL (attrText c.secondaryAttrs 0)
          price_per_sqm :=
            if c.secondaryAttrs = [] then none
            else sanitize_price_per_sqmL (attrText c.secondaryAttrs 1)
          location := safe_find c.locationTxt
          has_elevator := (c.features.map pyStrip).contains "Hiss"
          has_balcony := (c.features.map pyStrip).contains "Balkong" }

/-- Required-field filter of `run_listing_prices.py` line 121:
`if listing['exact_address'] and listing['price']` — Python truthiness,
so an empty-string address or a zero price is rejected. -/
def keepL (l : ListingL) : Bool :=
  truthyStr l.exact_address && truthyNat l.price

/-- The `SellingPriceAttributes` block of one sold-listing card:
the `.text` values of its `Medium` spans (in document order; `find`
returns the head) and of its price-per-m² paragraph, if present. -/
structure EndingPriceDiv where
  spans : List String
  pricePerSqmTxt : Option String
  deriving DecidableEq, Repr

/-- The raw text fragments the sold extractor (`run_end_prices.py`
`scrape_hemnet`, lines 98-163) reads off one `hcl-card` anchor. -/
structure CardE where
  href : Option String
  title : Option String
  locationTxt : Option String
  sizeRooms : List String
  feeTxt : Option String
  features : List String
  endingPriceDiv : Option EndingPriceDiv
  saleDateTxt : Option String
  deriving DecidableEq, Repr

/-- The `listing` dict of `run_end_prices.py` (lines 99-113). -/
structure ListingE where
  link : String
  exact_address : Option String
  size : Option ℚ
  rooms : Option ℚ
  monthly_fee : Option Nat
  location : Option String
  has_elevator : Bool
  has_balcony : Bool
  listing_price : Option Int
  end_price : Option Nat
  price_change_percentage : Option Nat
  price_per_sqm : Option Nat
  date : Option String
  deriving DecidableEq, Repr

/-- The `if len(size_rooms) >= 2` block of `run_end_prices.py`
(lines 122-125): size and rooms from the first two matched paragraphs
(raw `.text`, unstripped). -/
def sizeRoomsFields (sr : List String) : Option ℚ × Option ℚ :=
  match sr with
  | a :: b :: _ => (sanitize_sizeE (some a), sanitize_roomsE (some b))
  | _ => (none, none)

/-- The `if ending_price_div:` block of `run_end_prices.py`
(lines 136-158): end price from the first `Medium` span, percentage from
the second (stripped, digit-filtered, sign therefore lost; a `ValueError`
is caught and leaves both the percentage and the listing price unset),
derived listing price when both end price and percentage were obtained,
and price per m². -/
def endingFields (d : Option EndingPriceDiv) :
    Option Nat × Option Nat × Option Int × Option Nat :=
  match d with
  | none => (none, none, none, none)
  | some dv =>
    let ep : Option Nat :=
      match dv.spans.head? with
      | some t => sanitize_priceE (some t)
      | none => none
    let pclp : Option Nat × Option Int :=
      match dv.spans with
      | _ :: t2 :: _ =>
        match pyIntOfString (filterDigits (pyStrip t2)) with
        | some p => (some p, ep.map (fun e => derive_listing_price e p))
        | none => (none, none)
      | _ => (none, none)
    (ep, pclp.1, pclp.2, sanitize_price_per_sqmE dv.pricePerSqmTxt)

/-- The `if sale_date:` step of `run_end_prices.py` (lines 161-163):
parse the raw label text when the label exists; a parser failure raises
out of the card loop. -/
def dateField (dp : String → Option String) (o : Option String) :
    Except String (Option String) :=
  match o with
  | none => Except.ok none
  | some t =>
    match parse_swedish_date dp t with
    | Except.ok d => Except.ok (some d)
    | Except.error e => Except.error e

/-- One iteration of the `for item in items` body of `run_end_prices.py`
(lines 98-163), up to but not including the required-field filter.  The
two raise points are the fee sanitizer (no `try`) and the date parser
(no `try`), in that source order. -/
def buildListingE (dp : String → Option String) (c : CardE) :
    Except String ListingE :=
  match sanitize_feeE (safe_find c.feeTxt) with
  | Except.error e => Except.error e
  | Except.ok fee =>
    match dateField dp c.saleDateTxt with
    | Except.error e => Except.error e
    | Except.ok date =>
      Except.ok
        { link := "https://www.hemnet.se" ++ c.href.getD ""
          exact_address := sanitize_address (safe_find c.title)
          size := (sizeRoomsFields c.sizeRooms).1
          rooms := (sizeRoomsFields c.sizeRooms).2
          monthly_fee := fee
          location := safe_find c.locationTxt
          has_elevator := (c.features.map pyStrip).contains "Hiss"
          has_balcony := (c.features.map pyStrip).contains "Balkong"
          listing_price := (endingFields c.endingPriceDiv).2.2.1
          end_price := (endingFields c.endingPriceDiv).1
          price_change_percentage := (endingFields c.endingPriceDiv).2.1
          price_per_sqm := (endingFields c.endingPriceDiv).2.2.2
          date := date }

/-- Required-field filter of `run_end_prices.py` line 166:
`if listing['exact_address'] and listing['end_price'] and
listing['listing_price']` — Python truthiness again. -/
def keepE (l : ListingE) : Bool :=
  truthyStr l.exact_address && truthyNat l.end_price &&
    truthyInt l.listing_price

/-- Outcome of fetching and parsing one result page: an exception during
`requests.get` / `raise_for_status` / parsing, or the (possibly empty)
list of `hcl-card` anchors. -/
inductive Fetch (β : Type) where
  | err
  | ok (cards : List β)
  deriving DecidableEq, Repr

/-- The `for item in items` loop shared by both scripts: build each card's
listing, append it when the required-field test passes, otherwise bump the
skip counter; a raise inside the body stops the page immediately (third
component `true`), keeping what was accumulated. -/
def processCards {β α : Type} (build : β → Except String α) (keep : α → Bool) :
    List β → List α → Nat → List α × Nat × Bool
  | [], acc, sk => (acc, sk, false)
  | c :: rest, acc, sk =>
    match build c with
    | Except.error _ => (acc, sk, true)
    | Except.ok l =>
      if keep l then processCards build keep rest (acc ++ [l]) sk
      else processCards build keep rest acc (sk + 1)

/-- The listing a card contributes to the output: its built record when
the build succeeds and the required-field test passes, else nothing. -/
def builtKeeps {β α : Type} (build : β → Except String α) (keep : α → Bool)
    (c : β) : Option α :=
  match build c with
  | Except.ok l => if keep l then some l else none
  | Except.error _ => none

/-- The kept listings of one page's cards, in card order. -/
def keptOf {β α : Type} (build : β → Except String α) (keep : α → Bool)
    (cards : List β) : List α :=
  cards.filterMap (builtKeeps build keep)

/-- How many of one page's cards are built but fail the required-field
test (each bumps the skip counter exactly once). -/
def skipCount {β α : Type} (build : β → Except String α) (keep : α → Bool)
    (cards : List β) : Nat :=
  cards.countP (fun c =>
    match build c with
    | Except.ok l => !keep l
    | Except.error _ => false)

/-- What a whole run returns, plus the run's observable counters: the
accumulated listings (the Python return value), the skip counter, and the
page numbers for which a GET was issued, in order. -/
structure ScrapeResult (α : Type) where
  listings : List α
  skipped : Nat
  pagesRequested : List Nat
  deriving DecidableEq, Repr

/-- The `while True` pagination loop shared by both scripts
(`run_listing_prices.py` lines 72-138, `run_end_prices.py` lines 89-192):
fetch the current page (an exception ends the run, keeping the
accumulator), stop on an empty card list, process the cards (an exception
inside also ends the run), then `page += 1` and stop when the counter
reaches 50.  `fuel` is only a structural-termination device: the entry
point supplies `49 = 50 - 1`, and the literal `page + 1 = 50` test always
fires before the fuel can run out. -/
def scrapeGo {β α : Type} (build : β → Except String α) (keep : α → Bool)
    (fetch : Nat → Fetch β) :
    Nat → Nat → List α → Nat → List Nat → ScrapeResult α
  | 0, _, acc, sk, pages => ⟨acc, sk, pages⟩
  | fuel + 1, page, acc, sk, pages =>
    match fetch page with
    | Fetch.err => ⟨acc, sk, pages ++ [page]⟩
    | Fetch.ok cards =>
      if cards.isEmpty then ⟨acc, sk, pages ++ [page]⟩
      else
        match processCards build keep cards acc sk with
        | (acc2, sk2, true) => ⟨acc2, sk2, pages ++ [page]⟩
        | (acc2, sk2, false) =>
          if page + 1 = 50 then ⟨acc2, sk2, pages ++ [page]⟩
          else scrapeGo build keep fetch fuel (page + 1) acc2 sk2 (pages ++ [page])

/-- `scrape_hemnet`, generic in the per-card build and filter: start at
page 1 with empty accumulators. -/
def scrapeHemnet {β α : Type} (build : β → Except String α) (keep : α → Bool)
    (fetch : Nat → Fetch β) : ScrapeResult α :=
  scrapeGo build keep fetch 49 1 [] 0 []

/-- `scrape_hemnet` of `run_listing_prices.py` (lines 65-142). -/
def scrape_hemnetL (fetch : Nat → Fetch CardL) : ScrapeResult ListingL :=
  scrapeHemnet buildListingL keepL fetch

/-- `scrape_hemnet` of `run_end_prices.py` (lines 82-196), parameterised
by the external date parser. -/
def scrape_hemnetE (dp : String → Option String) (fetch : Nat → Fetch CardE) :
    ScrapeResult ListingE :=
  scrapeHemnet (buildListingE dp) keepE fetch

/-- Test fixture: a for-sale card whose listing is built and kept. -/
def cKeep : CardL :=
  { href := some "/bostad/agatan-1", title := some "Agatan 1",
    primaryAttrs := ["1 000 kr", "45,5 m²", "2 rum", "Plan 2 av 4"],
    secondaryAttrs := [], locationTxt := none, features := [] }

/-- The listing built from `cKeep`. -/
def lKeep : ListingL :=
  { link := "https://www.hemnet.se/bostad/agatan-1",
    exact_address := some "Agatan 1", price := some 1000,
    size := some (mkRat 91 2), rooms := some 2, floor := some 2,
    monthly_fee := none, price_per_sqm := none, location := none,
    has_elevator := false, has_balcony := false }

/-- Test fixture: a for-sale card whose fields are all non-null but whose
price text is `"0 kr"`, hence falsy after sanitization. -/
def cZero : CardL :=
  { href := some "/bostad/storgatan-1", title := some "Storgatan 1",
    primaryAttrs := ["0 kr"], secondaryAttrs := [],
    locationTxt := none, features := [] }

/-- The listing built from `cZero`: address and price both non-null. -/
def lZero : ListingL :=
  { link := "https://www.hemnet.se/bostad/storgatan-1",
    exact_address := some "Storgatan 1", price := some 0,
    size := none, rooms := none, floor := some 1,
    monthly_fee := none, price_per_sqm := none, location := none,
    has_elevator := false, has_balcony := false }

/-- Test fixture: a for-sale card with no primary-attribute elements. -/
def cNoAttrs : CardL :=
  { href := some "/bostad/storgatan-2", title := some "Storgatan 2",
    primaryAttrs := [], secondaryAttrs := [],
    locationTxt := none, features := [] }

/-- The listing built from `cNoAttrs`: floor and price both stay null. -/
def lNoAttrs : ListingL :=
  { link := "https://www.hemnet.se/bostad/storgatan-2",
    exact_address := some "Storgatan 2", price := none,
    size := none, rooms := none, floor := none,
    monthly_fee := none, price_per_sqm := none, location := none,
    has_elevator := false, has_balcony := false }

/-- Test fixture: a sold card with end price `1 000 kr` and percentage
`+3%`. -/
def ce1 : CardE :=
  { href := some "/salda/agatan-2", title := some "Agatan 2",
    locationTxt := none, sizeRooms := [], feeTxt := none, features := [],
    endingPriceDiv := some { spans := ["1 000 kr", "+3%"], pricePerSqmTxt := none },
    saleDateTxt := none }

/-- The listing built from `ce1`. -/
def le1 : ListingE :=
  { link := "https://www.hemnet.se/salda/agatan-2",
    exact_address := some "Agatan 2", size := none, rooms := none,
    monthly_fee := none, location := none,
    has_elevator := false, has_balcony := false,
    listing_price := some 970, end_price := some 1000,
    price_change_percentage := some 3, price_per_sqm := none, date := none }

/-- Test fixture: a date parser that always fails. -/
def dpW : String → Option String := fun _ => none

/-- Test fixture: page 1 has one good card, page 2's fetch raises. -/
def fetchW : Nat → Fetch CardL :=
  fun k => if k = 1 then Fetch.ok [cKeep] else Fetch.err

/-! Helper lemmas. -/

/-- A digit-filtered string with at least one digit converts with `int`
to the base-10 value of its digits. -/
theorem pyIntOfString_filterDigits (s : String)
    (h : s.toList.any isDig = true) :
    pyIntOfString (filterDigits s) = some (natOfDigits (s.toList.filter isDig)) := by
  have h1 : s.toList.filter isDig ≠ [] := by
    intro he
    rcases List.any_eq_true.mp h with ⟨c, hc, hd⟩
    have hm : c ∈ s.toList.filter isDig := List.mem_filter.mpr ⟨hc, hd⟩
    rw [he] at hm
    exact List.not_mem_nil c hm
  have h2 : (s.toList.filter isDig).all isDig = true := by
    apply List.all_eq_true.mpr
    intro c hc
    exact (List.mem_filter.mp hc).2
  have h3 : (filterDigits s).toList = s.toList.filter isDig := rfl
  unfold pyIntOfString
  rw [h3]
  rw [if_pos ⟨h1, h2⟩]

/-- A string with at least one digit is non-empty. -/
theorem ne_empty_of_any_digit (s : String) (h : s.toList.any isDig = true) :
    s ≠ "" := by
  intro he
  subst he
  simp at h

/-- The run found by `firstRun` is non-empty and consists of matching
characters. -/
theorem firstRun_spec (p : Char → Bool) :
    ∀ l r, firstRun p l = some r → r ≠ [] ∧ r.all p = true := by
  intro l
  induction l with
  | nil => intro r h; simp [firstRun] at h
  | cons c rest ih =>
    intro r h
    by_cases hc : p c = true
    · rw [firstRun, if_pos hc] at h
      cases h
      refine ⟨by simp, ?_⟩
      apply List.all_eq_true.mpr
      intro x hx
      rcases List.mem_cons.mp hx with hx | hx
      · subst hx; exact hc
      · exact List.mem_takeWhile_imp hx
    · rw [firstRun, if_neg hc] at h
      exact ih r h

/-- The floor sanitizer never returns null: its only fallback is the
deliberate default `1`. -/
theorem sanitize_floor_ne_none (o : Option String) : sanitize_floor o ≠ none := by
  match o with
  | none => simp [sanitize_floor]
  | some s =>
    by_cases hs : s = ""
    · simp [sanitize_floor, hs]
    · cases hfr : firstRun isDig s.toList with
      | none =>
        simp only [sanitize_floor, if_neg hs]
        rw [hfr]
        simp
      | some r =>
        obtain ⟨hne, hall⟩ := firstRun_spec isDig s.toList r hfr
        simp only [sanitize_floor, if_neg hs]
        rw [hfr]
        have h3 : (String.mk r).toList = r := rfl
        simp only [safe_int, Option.some_bind, pyIntOfString, h3]
        rw [if_pos ⟨hne, hall⟩]
        simp

/-- When every card of a page builds successfully, the card loop routes
each listing by the required-field test: kept listings are appended in
card order, every discarded listing bumps the skip counter exactly once,
and no exception occurs. -/
theorem processCards_ok {β α : Type} (build : β → Except String α)
    (keep : α → Bool) :
    ∀ (cards : List β) (acc : List α) (sk : Nat),
      (∀ c ∈ cards, ∃ l, build c = Except.ok l) →
      processCards build keep cards acc sk =
        (acc ++ keptOf build keep cards, sk + skipCount build keep cards, false) := by
  intro cards
  induction cards with
  | nil => intro acc sk _; simp [processCards, keptOf, skipCount]
  | cons c rest ih =>
    intro acc sk h
    obtain ⟨l, hl⟩ := h c (List.mem_cons_self c rest)
    have hrest : ∀ x ∈ rest, ∃ y, build x = Except.ok y :=
      fun x hx => h x (List.mem_cons_of_mem c hx)
    by_cases hk : keep l = true
    · rw [show processCards build keep (c :: rest) acc sk =
          processCards build keep rest (acc ++ [l]) sk by
        simp [processCards, hl, hk]]
      rw [ih (acc ++ [l]) sk hrest]
      simp [keptOf, builtKeeps, skipCount, hl, hk, List.append_assoc]
    · rw [show processCards build keep (c :: rest) acc sk =
          processCards build keep rest acc (sk + 1) by
        simp [processCards, hl, hk]]
      rw [ih acc (sk + 1) hrest]
      simp [keptOf, builtKeeps, skipCount, hl, hk]
      omega

/-- Every page number the loop requests lies between 1 and 49, given the
entry invariant `fuel + page ≤ 50`. -/
theorem scrapeGo_pages_bound {β α : Type} (build : β → Except String α)
    (keep : α → Bool) (fetch : Nat → Fetch β) :
    ∀ (fuel page : Nat) (acc : List α) (sk : Nat) (pages : List Nat),
      fuel + page ≤ 50 → 1 ≤ page →
      (∀ q ∈ pages, 1 ≤ q ∧ q ≤ 49) →
      ∀ q ∈ (scrapeGo build keep fetch fuel page acc sk pages).pagesRequested,
        1 ≤ q ∧ q ≤ 49 := by
  intro fuel
  induction fuel with
  | zero =>
    intro page acc sk pages _ _ hp q hq
    exact hp q hq
  | succ n ih =>
    intro page acc sk pages hle hpage hp q hq
    have hpage49 : page ≤ 49 := by omega
    have hnext : ∀ x ∈ pages ++ [page], 1 ≤ x ∧ x ≤ 49 := by
      intro x hx
      rcases List.mem_append.mp hx with h | h
      · exact hp x h
      · rw [List.mem_singleton.mp h]; exact ⟨hpage, hpage49⟩
    rw [scrapeGo] at hq
    cases hf : fetch page with
    | err =>
      rw [hf] at hq
      dsimp only at hq
      exact hnext q hq
    | ok cards =>
      rw [hf] at hq
      dsimp only at hq
      by_cases hce : cards.isEmpty = true
      · rw [if_pos hce] at hq
        exact hnext q hq
      · rw [if_neg hce] at hq
        rcases hpc : processCards build keep cards acc sk with ⟨acc2, sk2, b⟩
        rw [hpc] at hq
        cases b with
        | true =>
          dsimp only at hq
          exact hnext q hq
        | false =>
          dsimp only at hq
          by_cases h50 : page + 1 = 50
          · rw [if_pos h50] at hq
            exact hnext q hq
          · rw [if_neg h50] at hq
            exact ih (page + 1) acc2 sk2 (pages ++ [page]) (by omega) (by omega) hnext q hq

/-- The loop issues at most `fuel` further requests. -/
theorem scrapeGo_pages_length {β α : Type} (build : β → Except String α)
    (keep : α → Bool) (fetch : Nat → Fetch β) :
    ∀ (fuel page : Nat) (acc : List α) (sk : Nat) (pages : List Nat),
      (scrapeGo build keep fetch fuel page acc sk pages).pagesRequested.length ≤
        pages.length + fuel := by
  intro fuel
  induction fuel with
  | zero => intro page acc sk pages; simp [scrapeGo]
  | succ n ih =>
    intro page acc sk pages
    rw [scrapeGo]
    cases fetch page with
    | err => simp
    | ok cards =>
      dsimp only
      by_cases hce : cards.isEmpty = true
      · rw [if_pos hce]; simp
      · rw [if_neg hce]
        rcases processCards build keep cards acc sk with ⟨acc2, sk2, b⟩
        cases b with
        | true => simp
        | false =>
          dsimp only
          by_cases h50 : page + 1 = 50
          · rw [if_pos h50]; simp
          · rw [if_neg h50]
            calc (scrapeGo build keep fetch n (page + 1) acc2 sk2
                    (pages ++ [page])).pagesRequested.length
                ≤ (pages ++ [page]).length + n := ih (page + 1) acc2 sk2 (pages ++ [page])
              _ ≤ pages.length + (n + 1) := by simp; omega

/-- Partial-result invariant of the loop: if every page from the current
one up to (but excluding) page `N` fetches a non-empty card list whose
cards all build, and page `N`'s fetch raises, the loop returns the
accumulator extended by exactly the kept listings of those pages, in page
order. -/
theorem scrapeGo_partial {β α : Type} (build : β → Except String α)
    (keep : α → Bool) (fetch : Nat → Fetch β) (pcards : Nat → List β)
    (N : Nat) (hN : N ≤ 49) (herr : fetch N = Fetch.err)
    (hok : ∀ k, 1 ≤ k → k < N → fetch k = Fetch.ok (pcards k) ∧ pcards k ≠ [] ∧
      ∀ c ∈ pcards k, ∃ l, build c = Except.ok l) :
    ∀ (fuel page : Nat) (acc : List α) (sk : Nat) (pages : List Nat),
      1 ≤ page → page ≤ N → fuel = 50 - page →
      (scrapeGo build keep fetch fuel page acc sk pages).listings =
        acc ++ ((List.range' page (N - page)).map
          (fun k => keptOf build keep (pcards k))).flatten := by
  intro fuel
  induction fuel with
  | zero =>
    intro page acc sk pages h1 hpN hfuel
    omega
  | succ n ih =>
    intro page acc sk pages h1 hpN hfuel
    by_cases hpn : page = N
    · subst hpn
      rw [scrapeGo, herr]
      simp [Nat.sub_self]
    · have hlt : page < N := lt_of_le_of_ne hpN hpn
      obtain ⟨hf, hne, hbuilds⟩ := hok page h1 hlt
      rw [scrapeGo, hf]
      dsimp only
      have hce : (pcards page).isEmpty = false := by
        cases hpc : pcards page with
        | nil => exact absurd hpc hne
        | cons a l => rfl
      rw [if_neg (show ¬ ((pcards page).isEmpty = true) by
        rw [hce]; exact Bool.false_ne_true)]
      rw [processCards_ok build keep (pcards page) acc sk hbuilds]
      dsimp only
      have h50 : ¬ (page + 1 = 50) := by omega
      rw [if_neg h50]
      rw [ih (page + 1) (acc ++ keptOf build keep (pcards page))
        (sk + skipCount build keep (pcards page)) (pages ++ [page])
        (by omega) (by omega) (by omega)]
      rw [show N - page = (N - (page + 1)) + 1 by omega]
      rw [List.range'_succ page (N - (page + 1)) 1]
      simp [List.append_assoc]

/-! Claim theorems. -/

/-- C2 (code bug): the spec promises every sanitizer is total and that
failures degrade to null, but the sold variant's fee sanitizer raises
`ValueError` on a truthy digit-free string, and its date parser
propagates the parse failure instead of returning null. -/
theorem C2 :
    sanitize_feeE (some "kr/mån") = Except.error "ValueError"
  ∧ parse_swedish_date dpW "Såld 12 mars 2023" = Except.error "ParserError" :=
  ⟨by decide, rfl⟩

/-- C9 (confirmed): the address sanitizer returns a falsy input
unchanged — null for null, the empty string for the empty string —
unlike the numeric sanitizers, which normalise the empty string to
null. -/
theorem C9 :
    sanitize_address none = none
  ∧ sanitize_address (some "") = some ""
  ∧ sanitize_priceL (some "") = none
  ∧ sanitize_priceE (some "") = none :=
  ⟨rfl, rfl, rfl, rfl⟩

/-- C1 counterexample: the code truncates (`int()`) instead of rounding;
at end price 1000 and percentage 3 the code yields 970 while the claimed
`round` yields 971 (the third conjunct identifies the rational being
rounded with the claim's formula). -/
theorem C1_counterexample :
    derive_listing_price 1000 3 = 970
  ∧ round_half_up (mkRat 100000 103) = 971
  ∧ mkRat 100000 103 = (1000 : ℚ) / (1 + (3 : ℚ) / 100) :=
  ⟨by decide, by decide, by norm_num⟩

/-- C7 counterexample: the sold variant's float sanitizer does not take
the first whitespace-delimited token (which would fail to parse here and
give null) but the first run of digit/period/comma characters, yielding
45. -/
theorem C7_counterexample :
    sanitize_sizeE (some "ca 45 m²") = some 45
  ∧ float_token_rule "ca 45 m²" = none :=
  ⟨by decide, by decide⟩

/-- C7 (amended): the rooms and size sanitizers agree within each file;
the for-sale variant takes the first whitespace token after comma-to-dot
replacement, the sold variant the first run of digit/period/comma
characters; both map `"3,5 rum"` to 3.5 and `"45.0 m²"` to 45.0, but
they differ on strings such as `"ca 45 m²"`. -/
theorem C7 :
    (∀ o : Option String, sanitize_roomsL o = sanitize_sizeL o)
  ∧ (∀ o : Option String, sanitize_roomsE o = sanitize_sizeE o)
  ∧ sanitize_sizeL (some "3,5 rum") = Except.ok (some (mkRat 7 2))
  ∧ sanitize_sizeE (some "3,5 rum") = some (mkRat 7 2)
  ∧ mkRat 7 2 = (7 : ℚ) / 2
  ∧ sanitize_sizeL (some "45.0 m²") = Except.ok (some 45)
  ∧ sanitize_sizeE (some "45.0 m²") = some 45
  ∧ sanitize_sizeE (some "ca 45 m²") = some 45
  ∧ sanitize_sizeL (some "ca 45 m²") = Except.ok none :=
  ⟨fun o => rfl, fun o => rfl, by decide, by decide, by norm_num,
    by decide, by decide, by decide, by decide⟩

/-- C10 counterexample: a card with no primary-attribute elements
produces a listing with a null floor, but that listing also has a null
price and is therefore never kept — contradicting the claim that a kept
listing can have a null floor. -/
theorem C10_counterexample :
    buildListingL cNoAttrs = Except.ok lNoAttrs
  ∧ lNoAttrs.floor = none
  ∧ lNoAttrs.exact_address = some "Storgatan 2"
  ∧ lNoAttrs.price = none
  ∧ keepL lNoAttrs = false :=
  ⟨by decide, rfl, rfl, rfl, by decide⟩

/-- C4 counterexample: retention tests Python truthiness, not
non-nullness — a listing whose address and price are both non-null but
whose price is 0 is skipped (and counted), contradicting the claimed
"retained iff required fields non-null". -/
theorem C4_counterexample :
    buildListingL cZero = Except.ok lZero
  ∧ lZero.exact_address = some "Storgatan 1"
  ∧ lZero.price = some 0
  ∧ keepL lZero = false
  ∧ processCards buildListingL keepL [cZero] [] 0 = ([], 1, false) :=
  ⟨by decide, rfl, rfl, by decide, by decide⟩

/-- C6 (confirmed): every numeric sanitizer (price, end price, fee,
price per m², in both variants) maps a string containing at least one
digit to the integer formed by its digits in order of appearance, and
maps null or empty input to null (the sold variant's fee sanitizer
returning it as a normal, non-raising result). -/
theorem C6 (s : String) (h : s.toList.any isDig = true) :
    (sanitize_priceE (some s) = some (natOfDigits (s.toList.filter isDig))
  ∧ sanitize_price_per_sqmE (some s) = some (natOfDigits (s.toList.filter isDig))
  ∧ sanitize_feeE (some s) = Except.ok (some (natOfDigits (s.toList.filter isDig)))
  ∧ sanitize_priceL (some s) = some (natOfDigits (s.toList.filter isDig))
  ∧ sanitize_feeL (some s) = some (natOfDigits (s.toList.filter isDig))
  ∧ sanitize_price_per_sqmL (some s) = some (natOfDigits (s.toList.filter isDig)))
  ∧ (sanitize_priceE none = none ∧ sanitize_priceE (some "") = none
  ∧ sanitize_price_per_sqmE none = none ∧ sanitize_price_per_sqmE (some "") = none
  ∧ sanitize_feeE none = Except.ok none ∧ sanitize_feeE (some "") = Except.ok none
  ∧ sanitize_priceL none = none ∧ sanitize_priceL (some "") = none
  ∧ sanitize_feeL none = none ∧ sanitize_feeL (some "") = none
  ∧ sanitize_price_per_sqmL none = none ∧ sanitize_price_per_sqmL (some "") = none) := by
  have hs : s ≠ "" := ne_empty_of_any_digit s h
  have hp := pyIntOfString_filterDigits s h
  refine ⟨⟨?_, ?_, ?_, ?_, ?_, ?_⟩,
    rfl, rfl, rfl, rfl, rfl, rfl, rfl, rfl, rfl, rfl, rfl, rfl⟩
  · simp [sanitize_priceE, hs, hp]
  · simp [sanitize_price_per_sqmE, hs, hp]
  · simp [sanitize_feeE, hs, hp]
  · simp [sanitize_priceL, safe_int, hs, hp]
  · simp [sanitize_feeL, safe_int, hs, hp]
  · simp [sanitize_price_per_sqmL, safe_int, hs, hp]

/-- Witness for C6 at the concrete input `"1 234 kr"`. -/
theorem C6_witness :
    ("1 234 kr".toList.any isDig = true)
  ∧ sanitize_priceE (some "1 234 kr") =
      some (natOfDigits ("1 234 kr".toList.filter isDig)) :=
  ⟨by decide, (C6 "1 234 kr" (by decide)).1.1⟩

/-- C8 (confirmed): the floor sanitizer returns the integer formed by the
first run of digits when one exists, and the deliberate default 1 (never
null) when the input has no digits or is absent; `"Plan 4 av 6"` maps
to 4. -/
theorem C8 :
    (∀ (s : String) (r : List Char), firstRun isDig s.toList = some r →
      sanitize_floor (some s) = some (natOfDigits r))
  ∧ (∀ s : String, firstRun isDig s.toList = none →
      sanitize_floor (some s) = some 1)
  ∧ sanitize_floor none = some 1
  ∧ sanitize_floor (some "") = some 1
  ∧ sanitize_floor (some "Plan 4 av 6") = some 4 := by
  refine ⟨?_, ?_, rfl, rfl, by decide⟩
  · intro s r hfr
    obtain ⟨hne, hall⟩ := firstRun_spec isDig s.toList r hfr
    have hs : s ≠ "" := by
      intro he
      subst he
      have h0 : firstRun isDig "".toList = none := rfl
      rw [h0] at hfr
      exact Option.noConfusion hfr
    simp only [sanitize_floor, if_neg hs]
    rw [hfr]
    have h3 : (String.mk r).toList = r := rfl
    simp only [safe_int, Option.some_bind, pyIntOfString, h3]
    rw [if_pos ⟨hne, hall⟩]
  · intro s hfr
    by_cases hs : s = ""
    · simp [sanitize_floor, hs]
    · simp only [sanitize_floor, if_neg hs]
      rw [hfr]

/-- Witness for C8 at the concrete input `"Plan 4 av 6"`. -/
theorem C8_witness :
    firstRun isDig "Plan 4 av 6".toList = some ['4']
  ∧ sanitize_floor (some "Plan 4 av 6") = some (natOfDigits ['4']) :=
  ⟨by decide, C8.1 "Plan 4 av 6" ['4'] (by decide)⟩

/-- C5 (confirmed): regardless of the build, filter and fetch behaviour,
the pagination loop only ever requests pages 1 through 49 — at most 49
fetches — and with inexhaustible data it requests exactly pages 1..49,
stopping when the counter reaches 50. -/
theorem C5 {β α : Type} (build : β → Except String α) (keep : α → Bool)
    (fetch : Nat → Fetch β) :
    (∀ q ∈ (scrapeHemnet build keep fetch).pagesRequested, 1 ≤ q ∧ q ≤ 49)
  ∧ (scrapeHemnet build keep fetch).pagesRequested.length ≤ 49
  ∧ (scrapeHemnet (fun _ : Unit => Except.ok ()) (fun _ => true)
      (fun _ => Fetch.ok [()])).pagesRequested = List.range' 1 49 := by
  refine ⟨?_, ?_, by decide⟩
  · exact scrapeGo_pages_bound build keep fetch 49 1 [] 0 []
      (by omega) (by omega) (by simp)
  · have hlen := scrapeGo_pages_length build keep fetch 49 1 [] 0 []
    simpa [scrapeHemnet] using hlen

/-- Witness for C5: with a fetch that fails immediately the loop
requests exactly page 1, which the theorem bounds by 49. -/
theorem C5_witness :
    1 ∈ (scrapeHemnet buildListingL keepL (fun _ => Fetch.err)).pagesRequested
  ∧ 1 ≤ 1 ∧ 1 ≤ 49 :=
  ⟨by decide,
    (C5 buildListingL keepL (fun _ => Fetch.err)).1 1 (by decide)⟩

/-- C3 (confirmed): in a run that reaches page `N` — every earlier page
fetched a non-empty card list whose cards all built without raising —
and whose page-`N` fetch raises, the returned collection is exactly the
concatenation of the kept listings of pages 1 through `N - 1`: nothing
from page `N` appears and nothing earlier is lost.  Stated for the
pagination loop shared by both scripts (`scrape_hemnetL` and
`scrape_hemnetE` are its two instantiations). -/
theorem C3 {β α : Type} (build : β → Except String α) (keep : α → Bool)
    (fetch : Nat → Fetch β) (pcards : Nat → List β) (N : Nat)
    (h1 : 1 ≤ N) (h49 : N ≤ 49) (herr : fetch N = Fetch.err)
    (hok : ∀ k, 1 ≤ k → k < N →
      fetch k = Fetch.ok (pcards k) ∧ pcards k ≠ [] ∧
      ∀ c ∈ pcards k, ∃ l, build c = Except.ok l) :
    (scrapeHemnet build keep fetch).listings =
      ((List.range' 1 (N - 1)).map
        (fun k => keptOf build keep (pcards k))).flatten := by
  have h := scrapeGo_partial build keep fetch pcards N h49 herr hok
    49 1 [] 0 [] (by omega) h1 (by omega)
  simpa [scrapeHemnet] using h

/-- Witness for C3: one good page, then a fetch error on page 2; the run
returns exactly page 1's kept listings. -/
theorem C3_witness :
    fetchW 2 = Fetch.err
  ∧ (scrapeHemnet buildListingL keepL fetchW).listings =
      ((List.range' 1 1).map
        (fun _ => keptOf buildListingL keepL [cKeep])).flatten := by
  refine ⟨by decide, ?_⟩
  have hok : ∀ k, 1 ≤ k → k < 2 →
      fetchW k = Fetch.ok [cKeep] ∧ ([cKeep] : List CardL) ≠ [] ∧
      ∀ c ∈ [cKeep], ∃ l, buildListingL c = Except.ok l := by
    intro k hk1 hk2
    have hk : k = 1 := by omega
    subst hk
    refine ⟨by decide, by simp, ?_⟩
    intro c hc
    rw [List.mem_singleton.mp hc]
    exact ⟨lKeep, by decide⟩
  exact C3 buildListingL keepL fetchW (fun _ => [cKeep]) 2
    (by omega) (by omega) (by decide) hok

/-- C4 (amended): a built listing is retained in the output if and only
if its variant's required fields are truthy in Python's sense — non-null
and non-empty for the address, non-null and non-zero for the numeric
fields — and every discarded listing bumps the skip counter exactly
once; the last two conjuncts record that the retention tests are exactly
those truthiness tests. -/
theorem C4 (dp : String → Option String)
    (cardsL : List CardL) (cardsE : List CardE)
    (hL : ∀ c ∈ cardsL, ∃ l, buildListingL c = Except.ok l)
    (hE : ∀ c ∈ cardsE, ∃ l, buildListingE dp c = Except.ok l) :
    processCards buildListingL keepL cardsL [] 0 =
      (keptOf buildListingL keepL cardsL,
        skipCount buildListingL keepL cardsL, false)
  ∧ processCards (buildListingE dp) keepE cardsE [] 0 =
      (keptOf (buildListingE dp) keepE cardsE,
        skipCount (buildListingE dp) keepE cardsE, false)
  ∧ (∀ l, keepL l = (truthyStr l.exact_address && truthyNat l.price))
  ∧ (∀ l, keepE l = (truthyStr l.exact_address && truthyNat l.end_price &&
      truthyInt l.listing_price)) := by
  refine ⟨?_, ?_, fun l => rfl, fun l => rfl⟩
  · have h := processCards_ok buildListingL keepL cardsL [] 0 hL
    simpa using h
  · have h := processCards_ok (buildListingE dp) keepE cardsE [] 0 hE
    simpa using h

/-- Witness for C4: a two-card page (one kept, one skipped for its falsy
zero price) routed by the filter. -/
theorem C4_witness :
    (∀ c ∈ [cKeep, cZero], ∃ l, buildListingL c = Except.ok l)
  ∧ processCards buildListingL keepL [cKeep, cZero] [] 0 =
      (keptOf buildListingL keepL [cKeep, cZero],
        skipCount buildListingL keepL [cKeep, cZero], false) := by
  have hL : ∀ c ∈ [cKeep, cZero], ∃ l, buildListingL c = Except.ok l := by
    intro c hc
    rcases List.mem_cons.mp hc with h | h
    · subst h; exact ⟨lKeep, by decide⟩
    · rw [List.mem_singleton.mp h]; exact ⟨lZero, by decide⟩
  have hE : ∀ c ∈ ([] : List CardE), ∃ l, buildListingE dpW c = Except.ok l := by
    intro c hc
    exact absurd hc (List.not_mem_nil c)
  exact ⟨hL, (C4 dpW [cKeep, cZero] [] hL hE).1⟩

/-- C10 (amended): when a for-sale card has no primary-attribute
elements the produced listing's floor — and its price — stay null, so
the listing is never retained; consequently every retained listing has a
non-null floor (the default 1 is assigned whenever at least one
primary-attribute element is present). -/
theorem C10 (c : CardL) (l : ListingL)
    (hbuild : buildListingL c = Except.ok l) :
    (c.primaryAttrs = [] → l.floor = none ∧ l.price = none ∧ keepL l = false)
  ∧ (keepL l = true → l.floor ≠ none) := by
  cases hh : c.href with
  | none =>
    rw [buildListingL, hh] at hbuild
    exact absurd hbuild (by simp)
  | some h =>
    cases hpf : primaryFields c.primaryAttrs with
    | error e =>
      rw [buildListingL, hh, hpf] at hbuild
      exact absurd hbuild (by simp)
    | ok psrf =>
      rcases psrf with ⟨p, s, r, f⟩
      rw [buildListingL, hh, hpf] at hbuild
      dsimp only at hbuild
      have hl := Except.ok.inj hbuild
      subst hl
      constructor
      · intro hpa
        rw [hpa] at hpf
        rw [primaryFields, if_pos rfl] at hpf
        have hq := Except.ok.inj hpf
        obtain ⟨h1, h2, h3, h4⟩ : none = p ∧ none = s ∧ none = r ∧ none = f := by
          simpa using hq
        refine ⟨h4.symm, h1.symm, ?_⟩
        simp [keepL, truthyNat, ← h1]
      · intro hkeep
        by_cases hpa : c.primaryAttrs = []
        · rw [hpa] at hpf
          rw [primaryFields, if_pos rfl] at hpf
          have hq := Except.ok.inj hpf
          obtain ⟨h1, h2, h3, h4⟩ : none = p ∧ none = s ∧ none = r ∧ none = f := by
            simpa using hq
          rw [keepL] at hkeep
          dsimp only at hkeep
          rw [← h1] at hkeep
          simp [truthyNat] at hkeep
        · rw [primaryFields, if_neg hpa] at hpf
          cases hsz : sanitize_sizeL (attrText c.primaryAttrs 1) with
          | error e =>
            rw [hsz] at hpf
            exact absurd hpf (by simp)
          | ok sres =>
            rw [hsz] at hpf
            cases hrm : sanitize_roomsL (attrText c.primaryAttrs 2) with
            | error e =>
              rw [hrm] at hpf
              exact absurd hpf (by simp)
            | ok rres =>
              rw [hrm] at hpf
              dsimp only at hpf
              have hq := Except.ok.inj hpf
              obtain ⟨h1, h2, h3, h4⟩ :
                  sanitize_priceL (attrText c.primaryAttrs 0) = p ∧
                  sres = s ∧ rres = r ∧
                  sanitize_floor (attrText c.primaryAttrs 3) = f := by
                simpa using hq
              dsimp only
              rw [← h4]
              exact sanitize_floor_ne_none (attrText c.primaryAttrs 3)

/-- Witness for C10: the no-attribute card's listing has null floor and
is not kept; a kept card's listing has a non-null floor. -/
theorem C10_witness :
    (buildListingL cNoAttrs = Except.ok lNoAttrs
      ∧ (lNoAttrs.floor = none ∧ lNoAttrs.price = none ∧ keepL lNoAttrs = false))
  ∧ (buildListingL cKeep = Except.ok lKeep
      ∧ keepL lKeep = true ∧ lKeep.floor ≠ none) :=
  ⟨⟨by decide, (C10 cNoAttrs lNoAttrs (by decide)).1 rfl⟩,
   ⟨by decide, by decide, (C10 cKeep lKeep (by decide)).2 (by decide)⟩⟩

/-- When the ending-price block has a parsable end price in its first
span and a parsable percentage in its second, the derived listing price
is computed from the two. -/
theorem endingFields_listing_price (dv : EndingPriceDiv)
    (t1 t2 : String) (rest : List String) (e p : Nat)
    (hspans : dv.spans = t1 :: t2 :: rest)
    (hep : sanitize_priceE (some t1) = some e)
    (hpc : pyIntOfString (filterDigits (pyStrip t2)) = some p) :
    (endingFields (some dv)).2.2.1 = some (derive_listing_price e p) := by
  rw [endingFields]
  dsimp only
  rw [hspans]
  simp only [List.head?_cons]
  rw [hep, hpc]
  dsimp only
  rfl

/-- C1 (amended): whenever the sold extractor obtains both an end price
`e` and a percentage `p`, the derived listing price is the truncation —
not the rounding — of `e / (1 + p/100)`, with Python's float division
idealised as exact rational division; under that exact division the
spec's example (end price 1100000, percentage 10) yields 1000000 (the
actual IEEE-754 evaluation in CPython yields 999999). -/
theorem C1 (dp : String → Option String) (c : CardE) (dv : EndingPriceDiv)
    (t1 t2 : String) (rest : List String) (e p : Nat) (l : ListingE)
    (hdiv : c.endingPriceDiv = some dv)
    (hspans : dv.spans = t1 :: t2 :: rest)
    (hep : sanitize_priceE (some t1) = some e)
    (hpc : pyIntOfString (filterDigits (pyStrip t2)) = some p)
    (hbuild : buildListingE dp c = Except.ok l) :
    l.listing_price = some (derive_listing_price e p)
  ∧ derive_listing_price e p = pyTrunc ((e : ℚ) / (1 + (p : ℚ) / 100))
  ∧ derive_listing_price 1100000 10 = 1000000 := by
  refine ⟨?_, ?_, by decide⟩
  · cases hfee : sanitize_feeE (safe_find c.feeTxt) with
    | error e2 =>
      rw [buildListingE, hfee] at hbuild
      exact absurd hbuild (by simp)
    | ok fee =>
      cases hdate : dateField dp c.saleDateTxt with
      | error e2 =>
        rw [buildListingE, hfee, hdate] at hbuild
        exact absurd hbuild (by simp)
      | ok date =>
        rw [buildListingE, hfee, hdate] at hbuild
        dsimp only at hbuild
        have hl := Except.ok.inj hbuild
        subst hl
        dsimp only
        rw [hdiv]
        exact endingFields_listing_price dv t1 t2 rest e p hspans hep hpc
  · have hde : (mkRat (100 * e) (100 + p) : ℚ) = (e : ℚ) / (1 + (p : ℚ) / 100) := by
      rw [Rat.mkRat_eq_div]
      have hne : ((100 : ℚ) + (p : ℚ)) ≠ 0 := by positivity
      push_cast
      field_simp
      ring
    rw [derive_listing_price, hde]

/-- Witness for C1: the concrete sold card `ce1` (end price 1 000 kr,
percentage +3%) builds to a listing whose derived listing price is
`derive_listing_price 1000 3`. -/
theorem C1_witness :
    buildListingE dpW ce1 = Except.ok le1
  ∧ le1.listing_price = some (derive_listing_price 1000 3) :=
  ⟨by decide,
    (C1 dpW ce1 { spans := ["1 000 kr", "+3%"], pricePerSqmTxt := none }
      "1 000 kr" "+3%" [] 1000 3 le1 rfl rfl (by decide) (by decide)
      (by decide)).1⟩
